import Mathlib

/-!
Shallow embedding of the chat-triggered automation relay (`main.go`).

The program receives chat-platform events, matches message text against a
configured command table, and issues an outbound HTTP call (static task or
templated deployment trigger), reporting success or failure back to the
originating channel.

External effects (file system, JSON decoding, outbound HTTP) are modelled as
oracle parameters; the dispatch logic itself is translated directly from the
source.  Strings are handled at ASCII granularity (the commands, URLs and
credentials the program manipulates are ASCII), so `strings.ToLower` is the
ASCII case map and a byte of a string is the code of its character.
-/

namespace Bot

/-- `Task` from `main.go`: a static action descriptor.  `user`/`token` are
`omitempty` in Go, so an absent field is the empty string. -/
structure Task where
  command : String
  url : String
  method : String
  user : String
  token : String
deriving DecidableEq, Repr

/-- `JenkinsConfig` from `main.go`: the dynamic deployment template. -/
structure JenkinsConfig where
  user : String
  token : String
  urlFormat : String
deriving DecidableEq, Repr

/-- `Config` from `main.go`.  The Go `map[string]Task` is modelled as an
association list with unique keys; `lookupTask` below is map indexing and a
separate enumeration-order parameter models `range` iteration. -/
structure Config where
  slackToken : String
  tasks : List (String × Task)
  jenkins : JenkinsConfig
deriving DecidableEq, Repr

/-- Go map indexing `config.Tasks[key]` (second component of `find?`). -/
def lookupTask (tasks : List (String × Task)) (key : String) : Option Task :=
  (tasks.find? (fun e => e.1 == key)).map (fun e => e.2)

/-- One character of Go `strings.ToLower` at ASCII granularity:
`if 'A' <= c && c <= 'Z' { c += 32 }`. -/
def toLowerChar (c : Char) : Char :=
  if h : 65 ≤ c.toNat ∧ c.toNat ≤ 90 then
    ⟨⟨⟨c.toNat + 32, by omega⟩⟩, Or.inl (by
      show c.toNat + 32 < 55296
      omega)⟩
  else c

/-- Go `strings.ToLower` (ASCII fragment). -/
def goToLower (s : String) : String :=
  String.mk (s.data.map toLowerChar)

/-- Go `strings.HasPrefix(s, p)`. -/
def startsWith (s p : String) : Bool :=
  List.isPrefixOf p.data s.data

/-- Go `strings.Split(s, sep)` for a single-character separator: splits at
every occurrence of the separator, keeping empty fields. -/
def splitChars (sep : Char) : List Char → List (List Char)
  | [] => [[]]
  | c :: cs =>
    let rest := splitChars sep cs
    if c = sep then [] :: rest
    else
      match rest with
      | [] => [[c]]
      | t :: ts => (c :: t) :: ts

/-- `strings.Split(s, " ")` as used for deploy-argument extraction. -/
def splitSpace (s : String) : List String :=
  (splitChars ' ' s.data).map String.mk

/-- Go `strings.Replace(s, old, new, 1)`: replace the first occurrence only. -/
def replaceOnceChars (old new : List Char) : List Char → List Char
  | [] => if old.isEmpty then new else []
  | c :: cs =>
    if List.isPrefixOf old (c :: cs) then new ++ (c :: cs).drop old.length
    else c :: replaceOnceChars old new cs

/-- Go `strings.Replace(s, old, new, 1)` on strings. -/
def replaceOnce (s old new : String) : String :=
  String.mk (replaceOnceChars old.data new.data s.data)

/-- The base64 standard alphabet (`encoding/base64.StdEncoding`). -/
def base64Table : List Char :=
  "ABCDEFGHIJKLMNOPQRSTUVWXYZabcdefghijklmnopqrstuvwxyz0123456789+/".data

/-- One output character of base64 encoding. -/
def b64Char (n : Nat) : Char :=
  base64Table.getD n 'A'

/-- `base64.StdEncoding` over a byte sequence: 3-byte groups become 4
characters; a 2-byte tail gets one `=` pad, a 1-byte tail two. -/
def base64Chunks : List Nat → List Char
  | b1 :: b2 :: b3 :: rest =>
    let n := b1 * 65536 + b2 * 256 + b3
    b64Char (n / 262144) :: b64Char (n / 4096 % 64) :: b64Char (n / 64 % 64) ::
      b64Char (n % 64) :: base64Chunks rest
  | [b1, b2] =>
    let n := b1 * 1024 + b2 * 4
    [b64Char (n / 4096), b64Char (n / 64 % 64), b64Char (n % 64), '=']
  | [b1] =>
    let n := b1 * 16
    [b64Char (n / 64), b64Char (n % 64), '=', '=']
  | [] => []

/-- Bytes of an (ASCII) string. -/
def strBytes (s : String) : List Nat :=
  s.data.map Char.toNat

/-- `base64.StdEncoding.EncodeToString([]byte(s))`. -/
def base64Std (s : String) : String :=
  String.mk (base64Chunks (strBytes s))

/-- The Basic Authentication header value `"Basic " + base64(user + ":" + token)`
built identically at both call sites in `main.go`. -/
def basicAuth (user token : String) : String :=
  "Basic " ++ base64Std (user ++ ":" ++ token)

/-- An outbound HTTP request as the program builds it: method, URL and the
headers added with `req.Header.Add`. -/
structure HttpRequest where
  method : String
  url : String
  headers : List (String × String)
deriving DecidableEq, Repr

/-- Oracle for the external world: `urlOk url` tells whether
`http.NewRequest` succeeds for `url` (it returns a nil request and an error
exactly when the URL does not parse), and `respond req` is the status code
the downstream service answers with (`none` = transport-level error from
`client.Do`). -/
structure HttpWorld where
  urlOk : String → Bool
  respond : HttpRequest → Option Nat

/-- `http.NewRequest(method, url, nil)`: `none` models the nil-request/error
result for an unparsable URL. -/
def newRequest (w : HttpWorld) (method url : String) : Option HttpRequest :=
  if w.urlOk url then some { method := method, url := url, headers := [] }
  else none

/-- `req.Header.Add(key, value)`. -/
def addHeader (r : HttpRequest) (key value : String) : HttpRequest :=
  { r with headers := r.headers ++ [(key, value)] }

/-- Result of one executor call: `crash` models a Go runtime panic
(nil-pointer dereference); `done sent success` records the request actually
handed to `client.Do` (if any) and the returned boolean. -/
inductive ExecResult where
  | crash : ExecResult
  | done (sent : Option HttpRequest) (success : Bool) : ExecResult
deriving DecidableEq, Repr

/-- The shared tail of both executors: `client.Do(req)` followed by the
status-code classification `resp.StatusCode >= 200 && resp.StatusCode < 300`;
a transport error returns `false`. -/
def sendAndClassify (w : HttpWorld) (req : HttpRequest) : ExecResult :=
  match w.respond req with
  | none => .done (some req) false
  | some code => .done (some req) (decide (200 ≤ code ∧ code < 300))

/-- `executeJenkinsJob(url, user, token)` from `main.go`: always POST, and the
Basic Authentication header is attached unconditionally. -/
def executeJenkinsJob (w : HttpWorld) (url user token : String) : ExecResult :=
  match newRequest w "POST" url with
  | none => .done none false
  | some req => sendAndClassify w (addHeader req "Authorization" (basicAuth user token))

/-- `executeTask(task)` from `main.go`.  Note the faithful bug: in the POST
branch the `req.Header.Add` runs before the `err != nil` check, so when
request creation fails and both credentials are non-empty the nil request is
dereferenced (`crash`); with missing credentials the later error check is
reached and returns `false`. -/
def executeTask (w : HttpWorld) (task : Task) : ExecResult :=
  if task.method = "POST" then
    match newRequest w "POST" task.url with
    | none =>
      if task.user ≠ "" ∧ task.token ≠ "" then .crash
      else .done none false
    | some req =>
      if task.user ≠ "" ∧ task.token ≠ "" then
        sendAndClassify w (addHeader req "Authorization" (basicAuth task.user task.token))
      else sendAndClassify w req
  else
    match newRequest w "GET" task.url with
    | none => .done none false
    | some req => sendAndClassify w req

/-- The resolved meaning of an inbound message (spec §4.2); the constructors
mirror, in order, the branches of the dispatch chain in `handleMessageEvent`. -/
inductive Intent where
  | listCommands : Intent
  | deploy (service env : String) : Intent
  | invalidDeployFormat : Intent
  | staticTask (task : Task) : Intent
  | unknown : Intent
deriving DecidableEq, Repr

/-- The command-matching chain of `handleMessageEvent`, condition for
condition: the list check, then the deploy-prefix check with the 3-token
split of the original-case text, then the static lookup keyed by the
lowercased text. -/
def resolve (config : Config) (messageText : String) : Intent :=
  if goToLower messageText = "list command" ∨ goToLower messageText = "list" then
    .listCommands
  else if startsWith (goToLower messageText) "deploy " then
    let args := splitSpace messageText
    if args.length = 3 then .deploy (args.getD 1 "") (args.getD 2 "")
    else .invalidDeployFormat
  else
    match lookupTask config.tasks (goToLower messageText) with
    | some task => .staticTask task
    | none => .unknown

/-- The dynamic Jenkins URL built in the deploy branch:
`strings.Replace(format, "\x7bservice-name\x7d", serviceName, 1)` followed by
`strings.Replace(result, "\x7benv\x7d", env, 1)`. -/
def deployURL (jenkins : JenkinsConfig) (serviceName env : String) : String :=
  replaceOnce (replaceOnce jenkins.urlFormat "\x7bservice-name\x7d" serviceName)
    "\x7benv\x7d" env

/-- The `commandsList` accumulation of the list branch:
`commandsList += fmt.Sprintf("- %s\n", cmd)` over the map keys in the
enumeration order the runtime yields. -/
def commandsList (order : List String) : String :=
  order.foldl (fun acc cmd => acc ++ "- " ++ cmd ++ "\n") ""

/-- The reply of the list branch. -/
def listReply (order : List String) : String :=
  "Here are the available commands:\n" ++ commandsList order

/-- The reply of the deploy branch. -/
def deployReply (serviceName env : String) (success : Bool) : String :=
  if success then
    "Jenkins job for service \x27" ++ serviceName ++ "\x27 in environment \x27"
      ++ env ++ "\x27 executed successfully."
  else
    "Failed to execute Jenkins job for service \x27" ++ serviceName
      ++ "\x27 in environment \x27" ++ env ++ "\x27."

/-- The error reply for a malformed deploy command. -/
def invalidDeployReply : String :=
  "Invalid deploy command format. Use: deploy <service-name> <env>"

/-- The reply of the static-task branch. -/
def taskReply (task : Task) (success : Bool) : String :=
  if success then "Task \x27" ++ task.command ++ "\x27 executed successfully."
  else "Task \x27" ++ task.command ++ "\x27 failed to execute."

/-- The fallback reply for an unrecognized command. -/
def unknownReply : String :=
  "I don\x27t know your message. Please try again."

/-- The nested `event` object of an inbound envelope.  Fields the code reads
through `evt[...]` are `Option`s: `none` is an absent (or JSON-null) key.
`bot_id` is only compared against nil, so only its presence matters. -/
structure InboundEvent where
  botId : Option String
  subtype : Option String
  type : Option String
  text : Option String
  channel : Option String
deriving DecidableEq, Repr

/-- A plain human-authored message event carrying `text` and `channel`. -/
def plainMessage (text channel : String) : InboundEvent :=
  { botId := none, subtype := none, type := some "message",
    text := some text, channel := some channel }

/-- One observable outbound action of the handler: a request handed to the
HTTP client, or a `PostMessage` reply to a channel. -/
inductive Action where
  | httpCall (req : HttpRequest) : Action
  | reply (channel text : String) : Action
deriving DecidableEq, Repr

/-- The request (if any) an executor handed to `client.Do`, as an action list. -/
def sentActions : Option HttpRequest → List Action
  | none => []
  | some req => [.httpCall req]

/-- `handleMessageEvent` from `main.go` as a function from the inbound event
to its outbound actions, in order.  `event = none` models an envelope whose
`event` key is absent.  `order` is the (runtime-chosen) iteration order of
`range config.Tasks` in the list branch.  The result is `none` when the Go
code panics: on the nil-request dereference of `executeTask` (see there) and
on the unchecked `.(string)` type assertions for `text`/`channel`. -/
def handleMessageEvent (w : HttpWorld) (config : Config) (order : List String)
    (event : Option InboundEvent) : Option (List Action) :=
  match event with
  | none => some []
  | some evt =>
    if evt.botId.isSome then some []
    else if evt.type = some "message" ∧ evt.subtype = none then
      match evt.text, evt.channel with
      | some messageText, some channelID =>
        match resolve config messageText with
        | .listCommands => some [.reply channelID (listReply order)]
        | .deploy serviceName env =>
          match executeJenkinsJob w (deployURL config.jenkins serviceName env)
              config.jenkins.user config.jenkins.token with
          | .crash => none
          | .done sent success =>
            some (sentActions sent ++ [.reply channelID (deployReply serviceName env success)])
        | .invalidDeployFormat => some [.reply channelID invalidDeployReply]
        | .staticTask task =>
          match executeTask w task with
          | .crash => none
          | .done sent success =>
            some (sentActions sent ++ [.reply channelID (taskReply task success)])
        | .unknown => some [.reply channelID unknownReply]
      | _, _ => none
    else some []

/-- `loadConfig` from `main.go`.  `fs path` is the content `os.Open` +
`ReadAll` delivers (`none` = the file cannot be opened); `unmarshal` models
`json.Unmarshal`: the `Config` it wrote into the target (partial or
zero-valued on bad input) together with its success flag.  The source
discards the `Unmarshal` error, so the flag is never consulted. -/
def loadConfig (fs : String → Option String) (unmarshal : String → Config × Bool)
    (filePath : String) : Except String Config :=
  match fs filePath with
  | none => .error "open error"
  | some byteValue => .ok (unmarshal byteValue).1


theorem sendAndClassify_eq (w : HttpWorld) (req : HttpRequest) :
    sendAndClassify w req =
      .done (some req)
        (match w.respond req with
         | none => false
         | some code => decide (200 ≤ code ∧ code < 300)) := by
  unfold sendAndClassify
  cases w.respond req <;> rfl

theorem executeTask_done_some (w : HttpWorld) (task : Task) (req : HttpRequest) (b : Bool)
    (h : executeTask w task = .done (some req) b) :
    req = { method := if task.method = "POST" then "POST" else "GET",
            url := task.url,
            headers := if task.method = "POST" ∧ task.user ≠ "" ∧ task.token ≠ ""
                       then [("Authorization", basicAuth task.user task.token)] else [] }
    ∧ b = (match w.respond req with
           | none => false
           | some code => decide (200 ≤ code ∧ code < 300)) := by
  unfold executeTask newRequest at h
  by_cases hm : task.method = "POST"
  · rw [if_pos hm] at h
    by_cases hu : w.urlOk task.url
    · rw [if_pos hu] at h
      simp only [] at h
      by_cases hc : task.user ≠ "" ∧ task.token ≠ ""
      · rw [if_pos hc] at h
        rw [sendAndClassify_eq] at h
        injection h with h1 h2
        injection h1 with h1
        subst h1; subst h2
        refine ⟨?_, rfl⟩
        simp [addHeader, hm, hc]
      · rw [if_neg hc] at h
        rw [sendAndClassify_eq] at h
        injection h with h1 h2
        injection h1 with h1
        subst h1; subst h2
        refine ⟨?_, rfl⟩
        rw [if_pos hm, if_neg (fun hAnd => hc hAnd.2)]
    · rw [if_neg hu] at h
      simp only [] at h
      by_cases hc : task.user ≠ "" ∧ task.token ≠ ""
      · rw [if_pos hc] at h; exact absurd h (by simp)
      · rw [if_neg hc] at h; injection h with h1 h2; exact absurd h1 (by simp)
  · rw [if_neg hm] at h
    by_cases hu : w.urlOk task.url
    · rw [if_pos hu] at h
      simp only [] at h
      rw [sendAndClassify_eq] at h
      injection h with h1 h2
      injection h1 with h1
      subst h1; subst h2
      refine ⟨?_, rfl⟩
      rw [if_neg hm, if_neg (fun hAnd => hm hAnd.1)]
    · rw [if_neg hu] at h
      simp only [] at h
      injection h with h1 h2; exact absurd h1 (by simp)

theorem executeJenkinsJob_done_some (w : HttpWorld) (url user token : String)
    (req : HttpRequest) (b : Bool)
    (h : executeJenkinsJob w url user token = .done (some req) b) :
    req = { method := "POST", url := url,
            headers := [("Authorization", basicAuth user token)] }
    ∧ b = (match w.respond req with
           | none => false
           | some code => decide (200 ≤ code ∧ code < 300)) := by
  unfold executeJenkinsJob newRequest at h
  by_cases hu : w.urlOk url
  · rw [if_pos hu] at h
    simp only [] at h
    rw [sendAndClassify_eq] at h
    injection h with h1 h2
    injection h1 with h1
    subst h1; subst h2
    exact ⟨rfl, rfl⟩
  · rw [if_neg hu] at h
    simp only [] at h
    injection h with h1 h2; exact absurd h1 (by simp)

theorem executeJenkinsJob_ne_crash (w : HttpWorld) (url user token : String) :
    executeJenkinsJob w url user token ≠ .crash := by
  unfold executeJenkinsJob newRequest
  by_cases hu : w.urlOk url
  · rw [if_pos hu]
    simp only []
    rw [sendAndClassify_eq]
    intro h; exact ExecResult.noConfusion h
  · rw [if_neg hu]
    simp only []
    intro h; exact ExecResult.noConfusion h


/-- Fixture: an empty-task configuration used by witnesses. -/
def cfgNone : Config :=
  { slackToken := "tok", tasks := [], jenkins := { user := "", token := "", urlFormat := "" } }

/-- Fixture: a world where every URL parses and every call returns 200. -/
def wAccept : HttpWorld :=
  { urlOk := fun _ => true, respond := fun _ => some 200 }

/-- Modelled from the spec's words only (the code performs no trimming):
strip leading and trailing spaces. -/
def specTrim (s : String) : String :=
  String.mk (((s.data.dropWhile (fun c => c = ' ')).reverse.dropWhile
    (fun c => c = ' ')).reverse)

/-- C1: for any message whose lowercased form starts with "deploy ", the
resolver yields `Deploy` with the original-case second and third tokens when
the single-space split of the original text has exactly 3 tokens, and
`InvalidDeployFormat` otherwise, whose only handler action is the fixed error
reply (no task dispatch); this holds for every task table, so the deploy
check precedes the static-task lookup, and it sits after the list check. -/
theorem resolve_deploy_parse (cfg : Config) (text : String)
    (h : startsWith (goToLower text) "deploy " = true) :
    ((splitSpace text).length = 3 →
      resolve cfg text = .deploy ((splitSpace text).getD 1 "") ((splitSpace text).getD 2 ""))
    ∧ ((splitSpace text).length ≠ 3 →
      resolve cfg text = .invalidDeployFormat ∧
        ∀ w order channel,
          handleMessageEvent w cfg order (some (plainMessage text channel)) =
            some [Action.reply channel invalidDeployReply]) := by
  have hlist : ¬(goToLower text = "list command" ∨ goToLower text = "list") := by
    rintro (h1 | h1) <;> rw [h1] at h <;> exact absurd h (by decide)
  constructor
  · intro hlen
    unfold resolve
    rw [if_neg hlist, if_pos h]
    simp only []
    rw [if_pos hlen]
  · intro hlen
    have hres : resolve cfg text = .invalidDeployFormat := by
      unfold resolve
      rw [if_neg hlist, if_pos h]
      simp only []
      rw [if_neg hlen]
    refine ⟨hres, ?_⟩
    intro w order channel
    simp only [handleMessageEvent, plainMessage, hres]
    rfl

/-- Witness for C1: "deploy Payments PROD" parses with casing preserved and
the two-token "deploy payments" is rejected. -/
theorem resolve_deploy_parse_witness :
    startsWith (goToLower "deploy Payments PROD") "deploy " = true
    ∧ resolve cfgNone "deploy Payments PROD" = .deploy "Payments" "PROD"
    ∧ resolve cfgNone "deploy payments" = .invalidDeployFormat :=
  ⟨by decide,
   (resolve_deploy_parse cfgNone "deploy Payments PROD" (by decide)).1 (by decide),
   ((resolve_deploy_parse cfgNone "deploy payments" (by decide)).2 (by decide)).1⟩

/-- C2 counterexample: the claim requires trimming to suffice, but for the
input " list" (leading space) the trimmed lowercased text is "list" while the
code, which never trims, resolves it to `Unknown`. -/
theorem list_trim_counterexample :
    goToLower (specTrim " list") = "list" ∧ resolve cfgNone " list" = .unknown := by
  exact ⟨by decide, by decide⟩

/-- C2 amended: the resolver yields `ListCommands` exactly when the
lowercased, untrimmed message text equals "list" or "list command". -/
theorem resolve_listCommands_iff (cfg : Config) (text : String) :
    resolve cfg text = .listCommands ↔
      (goToLower text = "list command" ∨ goToLower text = "list") := by
  unfold resolve
  by_cases hc : goToLower text = "list command" ∨ goToLower text = "list"
  · rw [if_pos hc]
    simpa using hc
  · rw [if_neg hc]
    constructor
    · intro h
      exfalso
      by_cases hd : startsWith (goToLower text) "deploy " = true
      · rw [if_pos hd] at h
        simp only [] at h
        by_cases hl : (splitSpace text).length = 3
        · rw [if_pos hl] at h; exact Intent.noConfusion h
        · rw [if_neg hl] at h; exact Intent.noConfusion h
      · rw [if_neg hd] at h
        cases hq : lookupTask cfg.tasks (goToLower text) with
        | some t => rw [hq] at h; simp only [] at h; exact Intent.noConfusion h
        | none => rw [hq] at h; simp only [] at h; exact Intent.noConfusion h
    · intro h
      exact absurd h hc

/-- C3: every request `executeTask` actually sends has method "POST" exactly
when `task.method` is the exact string "POST" (anything else gives GET), the
task URL, and the Basic Authentication header exactly when the method is POST
and both credentials are non-empty; GET requests never carry the header. -/
theorem executeTask_request_shape (w : HttpWorld) (task : Task)
    (req : HttpRequest) (b : Bool)
    (h : executeTask w task = .done (some req) b) :
    req.method = (if task.method = "POST" then "POST" else "GET")
    ∧ req.url = task.url
    ∧ req.headers = (if task.method = "POST" ∧ task.user ≠ "" ∧ task.token ≠ ""
                     then [("Authorization", basicAuth task.user task.token)] else []) := by
  obtain ⟨h1, -⟩ := executeTask_done_some w task req b h
  subst h1
  exact ⟨rfl, rfl, rfl⟩

/-- Fixture: the spec's example POST task with credentials. -/
def taskPost : Task :=
  { command := "restart-api", url := "http://x/restart", method := "POST",
    user := "u", token := "t" }

/-- Fixture: a task whose method is lowercase "post" (must become GET). -/
def taskMixed : Task :=
  { command := "ping", url := "http://x/ping", method := "post",
    user := "u", token := "t" }

/-- Witness for C3: the POST task sends `Authorization: Basic dTp0`
(base64 of "u:t"), and the lowercase-"post" task sends a bare GET. -/
theorem executeTask_request_shape_witness :
    executeTask wAccept taskPost =
      .done (some { method := "POST", url := "http://x/restart",
                    headers := [("Authorization", "Basic dTp0")] }) true
    ∧ ({ method := "POST", url := "http://x/restart",
         headers := [("Authorization", "Basic dTp0")] } : HttpRequest).method =
        (if taskPost.method = "POST" then "POST" else "GET")
    ∧ executeTask wAccept taskMixed =
      .done (some { method := "GET", url := "http://x/ping", headers := [] }) true
    ∧ ({ method := "GET", url := "http://x/ping", headers := [] } : HttpRequest).headers =
        (if taskMixed.method = "POST" ∧ taskMixed.user ≠ "" ∧ taskMixed.token ≠ ""
         then [("Authorization", basicAuth taskMixed.user taskMixed.token)] else []) :=
  ⟨by decide,
   (executeTask_request_shape wAccept taskPost _ true (by decide)).1,
   by decide,
   (executeTask_request_shape wAccept taskMixed _ true (by decide)).2.2⟩


/-- C4: every request the handler sends for a resolved deploy intent is a
POST to the configured `url_format` with the first occurrence of the
service placeholder replaced by the service argument and then the first
occurrence of the env placeholder replaced by the env argument, verbatim and
unvalidated, and it always carries the Basic Authentication header built from
the configured credentials, even when both are empty. -/
theorem deploy_request_shape (w : HttpWorld) (cfg : Config) (order : List String)
    (text channel serviceName env : String) (acts : List Action) (req : HttpRequest)
    (hres : resolve cfg text = .deploy serviceName env)
    (hrun : handleMessageEvent w cfg order (some (plainMessage text channel)) = some acts)
    (hmem : Action.httpCall req ∈ acts) :
    req = { method := "POST", url := deployURL cfg.jenkins serviceName env,
            headers := [("Authorization", basicAuth cfg.jenkins.user cfg.jenkins.token)] } := by
  simp only [handleMessageEvent, plainMessage, hres] at hrun
  cases hj : executeJenkinsJob w (deployURL cfg.jenkins serviceName env)
      cfg.jenkins.user cfg.jenkins.token with
  | crash => exact absurd hj (executeJenkinsJob_ne_crash _ _ _ _)
  | done sent success =>
    rw [hj] at hrun
    simp only [Option.isSome_none, Bool.false_eq_true, if_false] at hrun
    injection hrun with hacts
    subst hacts
    cases sent with
    | none => simp [sentActions] at hmem
    | some r =>
      simp only [sentActions, List.cons_append, List.nil_append, List.mem_cons,
        List.mem_singleton] at hmem
      rcases hmem with hmem | hmem
      · injection hmem with hr
        subst hr
        exact (executeJenkinsJob_done_some _ _ _ _ _ _ hj).1
      · exact absurd hmem (by simp)

/-- Fixture: a deploy-capable configuration with empty Jenkins credentials. -/
def cfgDeploy : Config :=
  { slackToken := "tok", tasks := [],
    jenkins := { user := "", token := "",
                 urlFormat := "http://j/job/\x7bservice-name\x7d/\x7benv\x7d/build" } }

/-- Fixture: the request the C4 witness expects the deploy branch to send. -/
def reqDeploy : HttpRequest :=
  { method := "POST", url := "http://j/job/payments/prod/build",
    headers := [("Authorization", "Basic Og==")] }

/-- Witness for C4: "deploy payments prod" sends a POST to the substituted
URL with `Authorization: Basic Og==` (base64 of ":") despite empty
credentials. -/
theorem deploy_request_shape_witness :
    resolve cfgDeploy "deploy payments prod" = .deploy "payments" "prod"
    ∧ handleMessageEvent wAccept cfgDeploy [] (some (plainMessage "deploy payments prod" "C")) =
        some [Action.httpCall reqDeploy, Action.reply "C" (deployReply "payments" "prod" true)]
    ∧ reqDeploy =
        { method := "POST", url := deployURL cfgDeploy.jenkins "payments" "prod",
          headers := [("Authorization", basicAuth cfgDeploy.jenkins.user cfgDeploy.jenkins.token)] } :=
  ⟨by decide, by decide,
   deploy_request_shape wAccept cfgDeploy [] "deploy payments prod" "C" "payments" "prod"
     [Action.httpCall reqDeploy, Action.reply "C" (deployReply "payments" "prod" true)]
     reqDeploy (by decide) (by decide) (by decide)⟩

/-- Fixture: a world where no URL parses and every transport attempt fails. -/
def wReject : HttpWorld :=
  { urlOk := fun _ => false, respond := fun _ => none }

/-- Fixture: a POST task with credentials whose URL ":bad" fails request
creation (`http.NewRequest` yields a nil request and an error). -/
def taskBadURL : Task :=
  { command := "restart-api", url := ":bad", method := "POST",
    user := "u", token := "t" }

/-- C5 (code bug): on the POST path with both credentials non-empty, a failed
request creation dereferences the nil request and panics instead of returning
false; with a missing credential the error check is reached and false is
returned as the claim demands. -/
theorem executeTask_crash_eval :
    executeTask wReject taskBadURL = .crash
    ∧ executeTask wReject { taskBadURL with user := "" } = .done none false :=
  ⟨by decide, by decide⟩

/-- C6: both executors classify an outcome identically: the returned boolean
is true exactly when a response arrived with a status code in 200..299;
any other status and any transport error yield false. -/
theorem classify_both_paths (w : HttpWorld) (url user token : String) (task : Task)
    (reqJ reqT : HttpRequest) (bJ bT : Bool)
    (hJ : executeJenkinsJob w url user token = .done (some reqJ) bJ)
    (hT : executeTask w task = .done (some reqT) bT) :
    (bJ = true ↔ ∃ code, w.respond reqJ = some code ∧ 200 ≤ code ∧ code ≤ 299)
    ∧ (bT = true ↔ ∃ code, w.respond reqT = some code ∧ 200 ≤ code ∧ code ≤ 299) := by
  obtain ⟨-, hb⟩ := executeJenkinsJob_done_some w url user token reqJ bJ hJ
  obtain ⟨-, hb2⟩ := executeTask_done_some w task reqT bT hT
  subst hb; subst hb2
  constructor
  · cases hr : w.respond reqJ with
    | none => simp
    | some code =>
      simp only [Option.some.injEq, decide_eq_true_eq]
      constructor
      · rintro ⟨hc1, hc2⟩
        exact ⟨code, rfl, hc1, by omega⟩
      · rintro ⟨c, hc, hc1, hc2⟩
        subst hc
        omega
  · cases hr : w.respond reqT with
    | none => simp
    | some code =>
      simp only [Option.some.injEq, decide_eq_true_eq]
      constructor
      · rintro ⟨hc1, hc2⟩
        exact ⟨code, rfl, hc1, by omega⟩
      · rintro ⟨c, hc, hc1, hc2⟩
        subst hc
        omega

/-- Fixture: a world answering 204 to everything. -/
def w204 : HttpWorld :=
  { urlOk := fun _ => true, respond := fun _ => some 204 }

/-- Fixture: the request the Jenkins path sends in the C6 witness. -/
def reqJ204 : HttpRequest :=
  { method := "POST", url := "http://j", headers := [("Authorization", "Basic Og==")] }

/-- Fixture: the request the static-task path sends in the C6 witness. -/
def reqT204 : HttpRequest :=
  { method := "POST", url := "http://x/restart", headers := [("Authorization", "Basic dTp0")] }

/-- Witness for C6: with a 204 response both paths return true, and 204 is
inside 200..299. -/
theorem classify_both_paths_witness :
    executeJenkinsJob w204 "http://j" "" "" = .done (some reqJ204) true
    ∧ executeTask w204 taskPost = .done (some reqT204) true
    ∧ ((true = true ↔ ∃ code, w204.respond reqJ204 = some code ∧ 200 ≤ code ∧ code ≤ 299)
       ∧ (true = true ↔ ∃ code, w204.respond reqT204 = some code ∧ 200 ≤ code ∧ code ≤ 299)) :=
  ⟨by decide, by decide,
   classify_both_paths w204 "http://j" "" "" taskPost reqJ204 reqT204 true true
     (by decide) (by decide)⟩

/-- C7: config loading returns an error exactly when the file cannot be
opened; when it opens, the result is `ok` with whatever (possibly partial or
zero-valued) `Config` the deserializer wrote, regardless of the
deserializer's success flag: a deserialization failure is swallowed. -/
theorem loadConfig_error_iff (fs : String → Option String)
    (unmarshal : String → Config × Bool) (filePath : String) :
    ((∃ e, loadConfig fs unmarshal filePath = .error e) ↔ fs filePath = none)
    ∧ (∀ contents, fs filePath = some contents →
        loadConfig fs unmarshal filePath = .ok (unmarshal contents).1) := by
  unfold loadConfig
  cases hf : fs filePath with
  | none => simp
  | some c => simp

/-- Fixture: the zero value of `Config`. -/
def zeroConfig : Config :=
  { slackToken := "", tasks := [], jenkins := { user := "", token := "", urlFormat := "" } }

/-- Fixture: a file system whose config file holds malformed JSON. -/
def fsBadJson : String → Option String :=
  fun path => if path = "config.json" then some "\x7bnot json" else none

/-- Fixture: a deserializer that fails, leaving the zero-valued config. -/
def unmarshalFail : String → Config × Bool :=
  fun _ => (zeroConfig, false)

/-- Witness for C7: the file opens, deserialization fails, and loading still
succeeds with the zero-valued config. -/
theorem loadConfig_error_iff_witness :
    fsBadJson "config.json" = some "\x7bnot json"
    ∧ (unmarshalFail "\x7bnot json").2 = false
    ∧ loadConfig fsBadJson unmarshalFail "config.json" = .ok zeroConfig :=
  ⟨by decide, by decide,
   (loadConfig_error_iff fsBadJson unmarshalFail "config.json").2 "\x7bnot json" (by decide)⟩

/-- Fixture: a configuration whose only task is the bad-URL POST task. -/
def cfgBad : Config :=
  { slackToken := "tok", tasks := [("restart-api", taskBadURL)],
    jenkins := { user := "", token := "", urlFormat := "" } }

/-- C8 (code bug): bot, subtype and non-"message" events produce no dispatch
and no reply; but the valid human message "restart-api", hitting the bad-URL
POST task, makes the handler panic on the nil request, so it produces no
reply at all instead of exactly one outbound action. -/
theorem handle_filter_and_crash_eval :
    handleMessageEvent wReject cfgBad ["restart-api"]
      (some { botId := some "B1", subtype := none, type := some "message",
              text := some "restart-api", channel := some "C" }) = some []
    ∧ handleMessageEvent wReject cfgBad ["restart-api"]
      (some { botId := none, subtype := some "message_changed", type := some "message",
              text := some "restart-api", channel := some "C" }) = some []
    ∧ handleMessageEvent wReject cfgBad ["restart-api"]
      (some { botId := none, subtype := none, type := some "reaction_added",
              text := some "restart-api", channel := some "C" }) = some []
    ∧ handleMessageEvent wReject cfgBad ["restart-api"]
      (some (plainMessage "restart-api" "C")) = none :=
  ⟨by decide, by decide, by decide, by decide⟩

/-- Fixture tasks and two-entry configuration for the list-order claims. -/
def taskA : Task :=
  { command := "a", url := "http://x/a", method := "", user := "", token := "" }

/-- Second fixture task for the two-entry configuration. -/
def taskB : Task :=
  { command := "b", url := "http://x/b", method := "", user := "", token := "" }

/-- Fixture: a configuration with two tasks, keys "a" and "b". -/
def cfgTwo : Config :=
  { slackToken := "tok", tasks := [("a", taskA), ("b", taskB)],
    jenkins := { user := "", token := "", urlFormat := "" } }

/-- C9 counterexample: both orders are valid `range` enumerations of the same
unmutated task table, yet the replies differ, so two consecutive ListCommands
resolutions need not render identical reply text. -/
theorem list_order_counterexample :
    List.Perm ["a", "b"] (cfgTwo.tasks.map Prod.fst)
    ∧ List.Perm ["b", "a"] (cfgTwo.tasks.map Prod.fst)
    ∧ handleMessageEvent wAccept cfgTwo ["a", "b"] (some (plainMessage "list" "C"))
      ≠ handleMessageEvent wAccept cfgTwo ["b", "a"] (some (plainMessage "list" "C")) :=
  ⟨by decide, by decide, by decide⟩

/-- C9 amended: resolving ListCommands only reads the task table (the handler
is a pure function of the unchanged configuration) and produces exactly one
reply that enumerates the given iteration order; any two valid iteration
orders enumerate the same command set, but Go leaves the order unspecified,
so the rendered text may differ between calls. -/
theorem list_same_set (w : HttpWorld) (cfg : Config) (o1 o2 : List String) (channel : String)
    (h1 : List.Perm o1 (cfg.tasks.map Prod.fst))
    (h2 : List.Perm o2 (cfg.tasks.map Prod.fst)) :
    handleMessageEvent w cfg o1 (some (plainMessage "list" channel)) =
      some [Action.reply channel (listReply o1)]
    ∧ handleMessageEvent w cfg o2 (some (plainMessage "list" channel)) =
      some [Action.reply channel (listReply o2)]
    ∧ List.Perm o1 o2 :=
  ⟨rfl, rfl, h1.trans h2.symm⟩

/-- Witness for C9 amended: the two concrete orders of `cfgTwo` are both
valid enumerations and are permutations of each other. -/
theorem list_same_set_witness :
    handleMessageEvent wAccept cfgTwo ["b", "a"] (some (plainMessage "list" "C")) =
      some [Action.reply "C" (listReply ["b", "a"])]
    ∧ List.Perm ["a", "b"] ["b", "a"] :=
  ⟨(list_same_set wAccept cfgTwo ["a", "b"] ["b", "a"] "C" (by decide) (by decide)).2.1,
   (list_same_set wAccept cfgTwo ["a", "b"] ["b", "a"] "C" (by decide) (by decide)).2.2⟩

/-- An (ASCII) uppercase character. -/
def isUpperChar (c : Char) : Bool :=
  decide (65 ≤ c.toNat ∧ c.toNat ≤ 90)

/-- A string containing at least one uppercase character. -/
def hasUpperChar (s : String) : Bool :=
  s.data.any isUpperChar

/-- Lowercasing a character never yields an uppercase character. -/
theorem isUpperChar_toLowerChar (c : Char) : isUpperChar (toLowerChar c) = false := by
  unfold toLowerChar
  by_cases h : 65 ≤ c.toNat ∧ c.toNat ≤ 90
  · rw [dif_pos h]
    unfold isUpperChar
    simp only [decide_eq_false_iff_not]
    show ¬(65 ≤ c.toNat + 32 ∧ c.toNat + 32 ≤ 90)
    omega
  · rw [dif_neg h]
    unfold isUpperChar
    simp only [decide_eq_false_iff_not]
    exact h

/-- The lowercased message text contains no uppercase character. -/
theorem hasUpperChar_goToLower (s : String) : hasUpperChar (goToLower s) = false := by
  show (s.data.map toLowerChar).any isUpperChar = false
  rw [List.any_map]
  simp only [List.any_eq_false, Function.comp_apply]
  intro c hc
  simp [isUpperChar_toLowerChar c]

/-- C10: the static lookup keys the table by the lowercased full message
text, which contains no uppercase character, so no message ever matches an
entry whose key has an uppercase character, and any task the resolver returns
was found under an all-lowercase key. -/
theorem uppercase_key_unreachable (cfg : Config) (text key : String) (task : Task)
    (h : hasUpperChar key = true) :
    goToLower text ≠ key
    ∧ (∀ t : Task, cfg.tasks.find? (fun e => e.1 == goToLower text) ≠ some (key, t))
    ∧ (resolve cfg text = .staticTask task →
        ∃ k, (k, task) ∈ cfg.tasks ∧ hasUpperChar k = false) := by
  have hlow : hasUpperChar (goToLower text) = false := hasUpperChar_goToLower text
  have hne : goToLower text ≠ key := by
    intro he
    rw [he, h] at hlow
    exact Bool.noConfusion hlow
  refine ⟨hne, ?_, ?_⟩
  · intro t hf
    have hp := List.find?_some hf
    simp only [beq_iff_eq] at hp
    exact hne hp.symm
  · intro hres
    unfold resolve at hres
    by_cases hc : goToLower text = "list command" ∨ goToLower text = "list"
    · rw [if_pos hc] at hres
      exact Intent.noConfusion hres
    · rw [if_neg hc] at hres
      by_cases hd : startsWith (goToLower text) "deploy " = true
      · rw [if_pos hd] at hres
        simp only [] at hres
        by_cases hl : (splitSpace text).length = 3
        · rw [if_pos hl] at hres; exact Intent.noConfusion hres
        · rw [if_neg hl] at hres; exact Intent.noConfusion hres
      · rw [if_neg hd] at hres
        cases hq : lookupTask cfg.tasks (goToLower text) with
        | none => rw [hq] at hres; simp only [] at hres; exact Intent.noConfusion hres
        | some t =>
          rw [hq] at hres
          simp only [] at hres
          injection hres with ht
          subst ht
          unfold lookupTask at hq
          cases hfind : cfg.tasks.find? (fun e => e.1 == goToLower text) with
          | none => rw [hfind] at hq; exact Option.noConfusion hq
          | some e =>
            rw [hfind] at hq
            simp only [Option.map_some'] at hq
            injection hq with he
            have hmem := List.mem_of_find?_eq_some hfind
            have hkey := List.find?_some hfind
            simp only [beq_iff_eq] at hkey
            refine ⟨e.1, ?_, ?_⟩
            · rw [← he]
              have : (e.1, e.2) = e := rfl
              rw [this]
              exact hmem
            · rw [hkey]
              exact hlow

/-- Fixture: a task stored under the mixed-case key "Restart". -/
def taskUp : Task :=
  { command := "Restart", url := "http://x/r", method := "", user := "", token := "" }

/-- Fixture: a configuration whose only task key is "Restart". -/
def cfgUp : Config :=
  { slackToken := "tok", tasks := [("Restart", taskUp)],
    jenkins := { user := "", token := "", urlFormat := "" } }

/-- Witness for C10: the key "Restart" has an uppercase character and the
message "restart" (or any other) never finds it. -/
theorem uppercase_key_unreachable_witness :
    hasUpperChar "Restart" = true
    ∧ goToLower "Restart" ≠ "Restart"
    ∧ cfgUp.tasks.find? (fun e => e.1 == goToLower "restart") ≠ some ("Restart", taskUp) :=
  ⟨by decide,
   (uppercase_key_unreachable cfgUp "Restart" "Restart" taskUp (by decide)).1,
   (uppercase_key_unreachable cfgUp "restart" "Restart" taskUp (by decide)).2.1 taskUp⟩


end Bot
